import Mathlib

/-
Verification of the streaming-pull message-processor specification for the
pubsub client exercised by `pubsub/tests/system.py`.

The repository's source holds only the system tests; the streaming-pull core
itself (flow controller, dispatcher, lease table and extender, result future)
is the external `google.cloud.pubsub_v1` library. Components absent from the
source are therefore modelled from the specification text (each such
definition says so in its doc comment), while `StreamingPullCallback` and the
publish helpers are embedded directly from `pubsub/tests/system.py`.
-/

namespace Pubsub

/-! ## Flow Controller (spec section 4.2) -/

/-- Flow control configuration, mirroring `types.FlowControl(max_messages, max_bytes)`. -/
structure FlowControl where
  max_messages : Nat
  max_bytes : Nat
deriving DecidableEq

/-- Counters of the flow controller: concurrently outstanding messages and bytes. -/
structure FlowState where
  pending_count : Nat
  pending_bytes : Nat
deriving DecidableEq

/-- Modelled from the spec: the Flow Controller of `google.cloud.pubsub_v1` is not under
the source tree (only its system tests are). Admission requires
`pending_count < max_messages` and `pending_bytes + size ≤ max_bytes`, except that a
single message whose size exceeds `max_bytes` is still admitted alone (the byte limit
is advisory capacity, not a hard per-message cap). -/
def acquireAllowed (cfg : FlowControl) (s : FlowState) (size : Nat) : Bool :=
  decide (s.pending_count < cfg.max_messages) &&
    (decide (s.pending_bytes + size ≤ cfg.max_bytes) ||
      (decide (s.pending_count = 0) && decide (s.pending_bytes = 0)))

/-- Modelled from the spec: a granted `acquire(message_size)` increments both counters. -/
def acquire (s : FlowState) (size : Nat) : FlowState :=
  { pending_count := s.pending_count + 1, pending_bytes := s.pending_bytes + size }

/-- Modelled from the spec: `release(permit)` decrements both counters. -/
def release (s : FlowState) (size : Nat) : FlowState :=
  { pending_count := s.pending_count - 1, pending_bytes := s.pending_bytes - size }

/-- An observable flow-control event: an admission attempt or a permit release. -/
inductive FCEvent where
  | acq (size : Nat)
  | rel (size : Nat)

/-- Modelled from the spec: one flow-controller transition. A blocked admission (the
calling path suspends) and a release without a held permit yield `none`. -/
def fcStep (cfg : FlowControl) (s : FlowState) : FCEvent → Option FlowState
  | FCEvent.acq size => if acquireAllowed cfg s size then some (acquire s size) else none
  | FCEvent.rel size => if 0 < s.pending_count then some (release s size) else none

/-- The flow-controller state after a sequence of events, starting from empty counters;
a blocked event leaves the state unchanged (the caller is suspended, nothing admitted). -/
def fcRun (cfg : FlowControl) (events : List FCEvent) : FlowState :=
  events.foldl (fun s e => (fcStep cfg s e).getD s) ⟨0, 0⟩

theorem fcStep_count_le (cfg : FlowControl) (s : FlowState) (e : FCEvent)
    (h : s.pending_count ≤ cfg.max_messages) :
    ((fcStep cfg s e).getD s).pending_count ≤ cfg.max_messages := by
  cases e with
  | acq size =>
      by_cases ha : acquireAllowed cfg s size = true
      · have hlt : s.pending_count < cfg.max_messages := by
          simp only [acquireAllowed, Bool.and_eq_true, decide_eq_true_eq] at ha
          exact ha.1
        simp [fcStep, ha, acquire]
        omega
      · simp [fcStep, ha]
        exact h
  | rel size =>
      by_cases hr : 0 < s.pending_count
      · simp [fcStep, hr, release]
        omega
      · simp [fcStep, hr]
        exact h

theorem fcRun_invariant_aux (cfg : FlowControl) (events : List FCEvent) (s : FlowState)
    (h : s.pending_count ≤ cfg.max_messages) :
    (events.foldl (fun s e => (fcStep cfg s e).getD s) s).pending_count ≤
      cfg.max_messages := by
  induction events generalizing s with
  | nil => simpa using h
  | cons e es ih => exact ih _ (fcStep_count_le cfg s e h)

/-- Claim C1: after any sequence of admissions and releases, the flow controller's
`pending_count` (the number of un-acked messages concurrently held in the Dispatcher)
never exceeds `max_messages` (it is at least 0 since counters are naturals), and a
further admission attempt while the bound would be violated blocks (`fcStep` yields
`none`, no state is admitted). -/
theorem flow_control_pending_le_max (cfg : FlowControl) (events : List FCEvent)
    (s : FlowState) (size : Nat) (hfull : cfg.max_messages ≤ s.pending_count) :
    (fcRun cfg events).pending_count ≤ cfg.max_messages ∧
      fcStep cfg s (FCEvent.acq size) = none := by
  constructor
  · exact fcRun_invariant_aux cfg events ⟨0, 0⟩ (Nat.zero_le _)
  · have hna : acquireAllowed cfg s size = false := by
      simp only [acquireAllowed, Bool.and_eq_false_iff]
      left
      simp only [decide_eq_false_iff_not, Nat.not_lt]
      exact hfull
    simp [fcStep, hna]

/-- Witness for C1 at a concrete configuration and trace. -/
theorem flow_control_pending_le_max_witness :
    (fcRun ⟨5, 100⟩ [FCEvent.acq 3, FCEvent.acq 4, FCEvent.rel 3,
        FCEvent.acq 2]).pending_count ≤ 5 ∧
      fcStep ⟨5, 100⟩ ⟨5, 12⟩ (FCEvent.acq 1) = none :=
  flow_control_pending_le_max ⟨5, 100⟩
    [FCEvent.acq 3, FCEvent.acq 4, FCEvent.rel 3, FCEvent.acq 2] ⟨5, 12⟩ 1 (by decide)

/-- Claim C8: a single message whose size exceeds `max_bytes` is still admitted when it
is alone (`pending_count = 0`, `pending_bytes = 0`), so its `acquire` does not block
forever: the no-admission branch of `fcStep` is unreachable in this case. -/
theorem oversized_message_admitted_alone (cfg : FlowControl) (size : Nat)
    (hm : 0 < cfg.max_messages) (hb : cfg.max_bytes < size) :
    acquireAllowed cfg ⟨0, 0⟩ size = true ∧
      fcStep cfg ⟨0, 0⟩ (FCEvent.acq size) = some (acquire ⟨0, 0⟩ size) := by
  have ha : acquireAllowed cfg ⟨0, 0⟩ size = true := by
    simp [acquireAllowed, hm]
  exact ⟨ha, by simp [fcStep, ha]⟩

/-- Witness for C8: a 11-byte message against a 10-byte limit is admitted alone. -/
theorem oversized_message_admitted_alone_witness :
    acquireAllowed ⟨5, 10⟩ ⟨0, 0⟩ 11 = true ∧
      fcStep ⟨5, 10⟩ ⟨0, 0⟩ (FCEvent.acq 11) = some (acquire ⟨0, 0⟩ 11) :=
  oversized_message_admitted_alone ⟨5, 10⟩ 11 (by decide) (by decide)

/-! ## Result Future (spec sections 3, 7) -/

/-- Terminal outcome of a subscription session: success (on cancellation), cancelled,
or an error carrying a code identifying the propagated exception. -/
inductive Outcome where
  | success
  | cancelled
  | error (code : Nat)
deriving DecidableEq

/-- Modelled from the spec: the Result Future of `google.cloud.pubsub_v1.futures` is a
single-assignment cell; resolving an already-resolved future is a no-op
(first-writer-wins). -/
def resolveFuture (f : Option Outcome) (o : Outcome) : Option Outcome :=
  match f with
  | none => some o
  | some x => some x

/-- A resolution attempt instrumented with a count of the actual writes performed. -/
def resolveCounted (st : Option Outcome × Nat) (o : Outcome) : Option Outcome × Nat :=
  match st.1 with
  | none => (some o, st.2 + 1)
  | some x => (some x, st.2)

/-- The future's value and total write count after a sequence of terminal events each
attempting to resolve it, starting from the pending state. -/
def resolveAll (es : List Outcome) : Option Outcome × Nat :=
  es.foldl resolveCounted (none, 0)

theorem resolveCounted_stable (x : Outcome) (n : Nat) (es : List Outcome) :
    es.foldl resolveCounted (some x, n) = (some x, n) := by
  induction es with
  | nil => rfl
  | cons e es ih => simpa [resolveCounted] using ih

/-- Claim C4: the Result Future is single-assignment. Over any nonempty sequence of
terminal events, its value is set exactly once (write count 1), by the first event,
and every later resolution attempt leaves the value unchanged. -/
theorem result_future_first_writer_wins (e : Outcome) (es : List Outcome) :
    resolveAll (e :: es) = (some e, 1) ∧
      (∀ o : Outcome, resolveFuture (some e) o = some e) := by
  refine ⟨?_, fun o => rfl⟩
  show (e :: es).foldl resolveCounted (none, 0) = (some e, 1)
  simp only [List.foldl_cons, resolveCounted]
  exact resolveCounted_stable e 1 es

/-! ## Streaming Session state machine (spec sections 4.5, 5) -/

/-- Session lifecycle states from the spec's state machine. -/
inductive Phase where
  | initializing
  | streaming
  | cancelling
  | failed
  | closed
deriving DecidableEq

/-- Modelled from the spec: a Subscription Session aggregates its lifecycle phase, the
number of in-flight callbacks, and the single Result Future. -/
structure Session where
  phase : Phase
  inflight : Nat
  future : Option Outcome
deriving DecidableEq

/-- Modelled from the spec: caller cancellation flips an active session (INITIALIZING
or STREAMING) to CANCELLING and is a no-op in every other phase; it never touches the
in-flight callback count. -/
def cancel (s : Session) : Session :=
  match s.phase with
  | Phase.initializing => { s with phase := Phase.cancelling }
  | Phase.streaming => { s with phase := Phase.cancelling }
  | _ => s

/-- A session accepts new messages from the stream only while STREAMING. -/
def canIntake (s : Session) : Bool := s.phase == Phase.streaming

/-- Modelled from the spec: the session transitions. Intake admits a message into a
callback only while STREAMING; a running callback may finish in any phase; a transport
or callback error fails an active session, resolving the future with the error; a
CANCELLING (resp. FAILED) session reaches CLOSED only once no callbacks are in flight,
resolving the future with success on the cancellation path. -/
inductive SessStep : Session → Session → Prop where
  | intake (s : Session) (h : s.phase = Phase.streaming) :
      SessStep s { s with inflight := s.inflight + 1 }
  | callbackDone (s : Session) (h : 0 < s.inflight) :
      SessStep s { s with inflight := s.inflight - 1 }
  | fail (s : Session) (c : Nat)
      (h : s.phase = Phase.streaming ∨ s.phase = Phase.initializing) :
      SessStep s { s with phase := Phase.failed,
                          future := resolveFuture s.future (Outcome.error c) }
  | closeCancelled (s : Session) (h : s.phase = Phase.cancelling) (h0 : s.inflight = 0) :
      SessStep s { s with phase := Phase.closed,
                          future := resolveFuture s.future Outcome.success }
  | closeFailed (s : Session) (h : s.phase = Phase.failed) (h0 : s.inflight = 0) :
      SessStep s { s with phase := Phase.closed }

/-- Claim C7: cancel is idempotent (cancel after cancel equals cancel), stops intake of
new messages, does not interrupt running callbacks (the in-flight count is untouched),
and any step that brings a not-yet-closed session to CLOSED requires all in-flight
callbacks to have finished. -/
theorem cancel_idempotent_and_drained_close (s t : Session) (hstep : SessStep s t) :
    cancel (cancel s) = cancel s ∧
      canIntake (cancel s) = false ∧
      (cancel s).inflight = s.inflight ∧
      (t.phase = Phase.closed → s.phase = Phase.closed ∨ s.inflight = 0) := by
  refine ⟨?_, ?_, ?_, ?_⟩
  · cases hp : s.phase <;> simp [cancel, hp]
  · cases hp : s.phase <;> simp [cancel, canIntake, hp]
  · cases hp : s.phase <;> simp [cancel, hp]
  · intro hc
    cases hstep with
    | intake h => left; rw [← hc]
    | callbackDone h => left; rw [← hc]
    | fail c h =>
        simp only at hc
        cases hc
    | closeCancelled h h0 => right; exact h0
    | closeFailed h h0 => right; exact h0

/-- Witness for C7: closing a drained CANCELLING session. -/
theorem cancel_idempotent_and_drained_close_witness :
    cancel (cancel ⟨Phase.cancelling, 0, none⟩) = cancel ⟨Phase.cancelling, 0, none⟩ ∧
      canIntake (cancel ⟨Phase.cancelling, 0, none⟩) = false ∧
      (cancel ⟨Phase.cancelling, 0, none⟩).inflight =
        (⟨Phase.cancelling, 0, none⟩ : Session).inflight ∧
      ((⟨Phase.closed, 0, some Outcome.success⟩ : Session).phase = Phase.closed →
        (⟨Phase.cancelling, 0, none⟩ : Session).phase = Phase.closed ∨
          (⟨Phase.cancelling, 0, none⟩ : Session).inflight = 0) :=
  cancel_idempotent_and_drained_close ⟨Phase.cancelling, 0, none⟩
    ⟨Phase.closed, 0, some Outcome.success⟩
    (SessStep.closeCancelled ⟨Phase.cancelling, 0, none⟩ rfl rfl)

/-! ## Waiting on the Result Future with a timeout (spec sections 5, 7) -/

/-- What a call to `result_future.result(timeout)` returns to the caller: the resolved
outcome re-raised or returned, or a timeout indication. -/
inductive ResultResponse where
  | success
  | cancelled
  | raised (code : Nat)
  | timedOut
deriving DecidableEq

/-- How a resolved outcome surfaces from `result_future.result`: success returns,
errors are re-raised. Never a timeout indication. -/
def outcomeResponse : Outcome → ResultResponse
  | Outcome.success => ResultResponse.success
  | Outcome.cancelled => ResultResponse.cancelled
  | Outcome.error c => ResultResponse.raised c

/-- Modelled from the spec: `result_future.result(timeout)` against a resolution
schedule (`none` if the future never resolves, `some (t, o)` if it resolves at time
`t` with outcome `o`). If the future resolves within the timeout the outcome
surfaces; otherwise the call raises the timeout indication. The session is returned
untouched in either case. -/
def resultWithTimeout (sched : Option (Nat × Outcome)) (s : Session) (timeout : Nat) :
    ResultResponse × Session :=
  match sched with
  | some (t, o) =>
      if t ≤ timeout then (outcomeResponse o, s) else (ResultResponse.timedOut, s)
  | none => (ResultResponse.timedOut, s)

/-- Claim C6: when the future has not resolved within the timeout,
`result_future.result(timeout)` raises the timeout indication and leaves the session
unchanged — it can still be cancelled, and its future can still resolve, exactly as
before the call; and the timeout indication arises only from this waiting operation
(no resolved outcome ever surfaces as a timeout). -/
theorem result_timeout_leaves_session (sched : Option (Nat × Outcome)) (s : Session)
    (timeout : Nat) (h : ∀ t o, sched = some (t, o) → timeout < t) :
    (resultWithTimeout sched s timeout).1 = ResultResponse.timedOut ∧
      (resultWithTimeout sched s timeout).2 = s ∧
      cancel (resultWithTimeout sched s timeout).2 = cancel s ∧
      (∀ o : Outcome,
        resolveFuture ((resultWithTimeout sched s timeout).2).future o =
          resolveFuture s.future o) ∧
      (∀ o : Outcome, outcomeResponse o ≠ ResultResponse.timedOut) := by
  have hs : resultWithTimeout sched s timeout = (ResultResponse.timedOut, s) := by
    cases sched with
    | none => rfl
    | some p =>
        have hlt : timeout < p.1 := h p.1 p.2 (by rw [Prod.mk.eta])
        simp [resultWithTimeout, Nat.not_le.mpr hlt]
  refine ⟨by rw [hs], by rw [hs], by rw [hs], by rw [hs]; intro o; rfl, ?_⟩
  intro o
  cases o <;> simp [outcomeResponse]

/-- Witness for C6: a future resolving at time 40 queried with timeout 5. -/
theorem result_timeout_leaves_session_witness :
    (resultWithTimeout (some (40, Outcome.success)) ⟨Phase.streaming, 2, none⟩ 5).1 =
        ResultResponse.timedOut ∧
      (resultWithTimeout (some (40, Outcome.success)) ⟨Phase.streaming, 2, none⟩ 5).2 =
        ⟨Phase.streaming, 2, none⟩ ∧
      cancel (resultWithTimeout (some (40, Outcome.success))
          ⟨Phase.streaming, 2, none⟩ 5).2 = cancel ⟨Phase.streaming, 2, none⟩ ∧
      (∀ o : Outcome,
        resolveFuture ((resultWithTimeout (some (40, Outcome.success))
            ⟨Phase.streaming, 2, none⟩ 5).2).future o =
          resolveFuture (⟨Phase.streaming, 2, none⟩ : Session).future o) ∧
      (∀ o : Outcome, outcomeResponse o ≠ ResultResponse.timedOut) :=
  result_timeout_leaves_session (some (40, Outcome.success)) ⟨Phase.streaming, 2, none⟩ 5
    (by intro t o ht; cases ht; decide)

/-! ## Dispatcher: callback invocation, acknowledgment, error propagation
(spec sections 4.3, 7) -/

/-- One delivery of a message to the processor, identified by its ack-id. -/
structure Delivery where
  ack_id : Nat
deriving DecidableEq

/-- Observable record of a session run: ack-ids for which the callback was invoked (in
order), ack-ids acknowledged, the Result Future's value, and whether session shutdown
was triggered. -/
structure RunResult where
  calls : List Nat
  acked : List Nat
  outcome : Option Outcome
  shutdown : Bool
deriving DecidableEq

/-- Modelled from the spec: the Dispatcher of `google.cloud.pubsub_v1` is not under the
source tree. It invokes the user callback exactly once per delivery; after a normal
return the message is acknowledged; if the callback raises, the message is not acked,
the Result Future resolves with that error, the session shuts down, and no further
callbacks are invoked. -/
def runSession (cb : Delivery → Except Nat Unit) : List Delivery → RunResult
  | [] => { calls := [], acked := [], outcome := none, shutdown := false }
  | d :: rest =>
    match cb d with
    | Except.ok _ =>
        let r := runSession cb rest
        { calls := d.ack_id :: r.calls, acked := d.ack_id :: r.acked,
          outcome := r.outcome, shutdown := r.shutdown }
    | Except.error c =>
        { calls := [d.ack_id], acked := [],
          outcome := some (Outcome.error c), shutdown := true }

/-- Claim C2: if the user callback raises on a delivered message (after succeeding on
the deliveries before it), the Result Future resolves with that same error — which
`result_future.result` re-raises — the failing message is not acked (only the earlier
successful deliveries are), the session shuts down, and no callback runs for any later
delivery. -/
theorem callback_error_fails_session (cb : Delivery → Except Nat Unit)
    (pre post : List Delivery) (d : Delivery) (c : Nat)
    (hpre : ∀ x ∈ pre, cb x = Except.ok ())
    (hd : cb d = Except.error c) :
    (runSession cb (pre ++ d :: post)).outcome = some (Outcome.error c) ∧
      (runSession cb (pre ++ d :: post)).acked = pre.map Delivery.ack_id ∧
      (runSession cb (pre ++ d :: post)).calls =
        pre.map Delivery.ack_id ++ [d.ack_id] ∧
      (runSession cb (pre ++ d :: post)).shutdown = true ∧
      outcomeResponse (Outcome.error c) = ResultResponse.raised c := by
  induction pre with
  | nil =>
      refine ⟨?_, ?_, ?_, ?_, rfl⟩ <;> simp [runSession, hd]
  | cons x xs ih =>
      have hx : cb x = Except.ok () := hpre x (List.mem_cons_self x xs)
      have hxs : ∀ y ∈ xs, cb y = Except.ok () :=
        fun y hy => hpre y (List.mem_cons_of_mem x hy)
      obtain ⟨ho, ha, hc2, hsd, _⟩ := ih hxs
      refine ⟨?_, ?_, ?_, ?_, rfl⟩ <;>
        simp [runSession, hx, ho, ha, hc2, hsd]

/-- Witness for C2: callback fails on ack-id 2 after succeeding on ack-id 1. -/
theorem callback_error_fails_session_witness :
    (runSession (fun d => if d.ack_id = 2 then Except.error 7 else Except.ok ())
        ([⟨1⟩] ++ ⟨2⟩ :: [⟨3⟩])).outcome = some (Outcome.error 7) ∧
      (runSession (fun d => if d.ack_id = 2 then Except.error 7 else Except.ok ())
          ([⟨1⟩] ++ ⟨2⟩ :: [⟨3⟩])).acked = [⟨1⟩].map Delivery.ack_id ∧
      (runSession (fun d => if d.ack_id = 2 then Except.error 7 else Except.ok ())
          ([⟨1⟩] ++ ⟨2⟩ :: [⟨3⟩])).calls =
        [⟨1⟩].map Delivery.ack_id ++ [(⟨2⟩ : Delivery).ack_id] ∧
      (runSession (fun d => if d.ack_id = 2 then Except.error 7 else Except.ok ())
          ([⟨1⟩] ++ ⟨2⟩ :: [⟨3⟩])).shutdown = true ∧
      outcomeResponse (Outcome.error 7) = ResultResponse.raised 7 :=
  callback_error_fails_session
    (fun d => if d.ack_id = 2 then Except.error 7 else Except.ok ())
    [⟨1⟩] [⟨3⟩] ⟨2⟩ 7
    (by intro x hx; simp at hx; subst hx; rfl) rfl

theorem runSession_calls_sublist (cb : Delivery → Except Nat Unit) (ds : List Delivery) :
    (runSession cb ds).calls.Sublist (ds.map Delivery.ack_id) := by
  induction ds with
  | nil => simp [runSession]
  | cons x rest ih =>
      cases hx : cb x with
      | ok u =>
          simpa [runSession, hx] using List.Sublist.cons₂ x.ack_id ih
      | error c => simp [runSession, hx]

theorem runSession_acked_sublist (cb : Delivery → Except Nat Unit) (ds : List Delivery) :
    (runSession cb ds).acked.Sublist (runSession cb ds).calls := by
  induction ds with
  | nil => simp [runSession]
  | cons x rest ih =>
      cases hx : cb x with
      | ok u => simpa [runSession, hx] using List.Sublist.cons₂ x.ack_id ih
      | error c => simp [runSession, hx]

theorem runSession_acked_ok (cb : Delivery → Except Nat Unit) (ds : List Delivery)
    (d : Delivery) (hnd : (ds.map Delivery.ack_id).Nodup) (hm : d ∈ ds)
    (ha : d.ack_id ∈ (runSession cb ds).acked) : cb d = Except.ok () := by
  induction ds with
  | nil => cases hm
  | cons x rest ih =>
      simp only [List.map_cons, List.nodup_cons] at hnd
      cases hx : cb x with
      | ok u =>
          simp only [runSession, hx, List.mem_cons] at ha
          rcases List.mem_cons.mp hm with hdx | hdr
          · subst hdx
            cases u
            exact hx
          · rcases ha with haeq | har
            · exact absurd (haeq ▸ List.mem_map_of_mem Delivery.ack_id hdr) hnd.1
            · exact ih hnd.2 hdr har
      | error c =>
          simp [runSession, hx] at ha


theorem runSession_ok_acked (cb : Delivery → Except Nat Unit) (ds : List Delivery)
    (d : Delivery) (hnd : (ds.map Delivery.ack_id).Nodup) (hm : d ∈ ds)
    (hcalls : d.ack_id ∈ (runSession cb ds).calls) (hok : cb d = Except.ok ()) :
    d.ack_id ∈ (runSession cb ds).acked := by
  induction ds with
  | nil => cases hm
  | cons x rest ih =>
      simp only [List.map_cons, List.nodup_cons] at hnd
      cases hx : cb x with
      | ok u =>
          simp only [runSession, hx, List.mem_cons] at hcalls ⊢
          rcases hcalls with heq | hin
          · exact Or.inl heq
          · rcases List.mem_cons.mp hm with hdx | hdr
            · subst hdx
              exact Or.inl rfl
            · exact Or.inr (ih hnd.2 hdr hin)
      | error c =>
          simp only [runSession, hx, List.mem_singleton] at hcalls
          rcases List.mem_cons.mp hm with hdx | hdr
          · subst hdx
            rw [hok] at hx
            cases hx
          · exact absurd (hcalls ▸ List.mem_map_of_mem Delivery.ack_id hdr) hnd.1

/-- Claim C3: per delivery under distinct ack-ids, the user callback is invoked exactly
once for each delivered message; a delivery is acknowledged exactly once after a normal
callback return, and left un-acked (for broker-side redelivery) after the callback
raises; no delivery is ever acknowledged twice. -/
theorem delivery_called_once_acked_at_most_once (cb : Delivery → Except Nat Unit)
    (ds : List Delivery) (d : Delivery)
    (hnd : (ds.map Delivery.ack_id).Nodup) (hm : d ∈ ds) :
    (d.ack_id ∈ (runSession cb ds).calls →
      (runSession cb ds).calls.count d.ack_id = 1) ∧
      (d.ack_id ∈ (runSession cb ds).acked →
        (runSession cb ds).acked.count d.ack_id = 1) ∧
      (d.ack_id ∈ (runSession cb ds).acked → cb d = Except.ok ()) ∧
      (∀ c, cb d = Except.error c → d.ack_id ∉ (runSession cb ds).acked) ∧
      (d.ack_id ∈ (runSession cb ds).calls → cb d = Except.ok () →
        d.ack_id ∈ (runSession cb ds).acked) := by
  have hcallsnd : (runSession cb ds).calls.Nodup :=
    (runSession_calls_sublist cb ds).nodup hnd
  have hackednd : (runSession cb ds).acked.Nodup :=
    (runSession_acked_sublist cb ds).nodup hcallsnd
  refine ⟨?_, ?_, ?_, ?_, ?_⟩
  · intro hmem
    exact List.count_eq_one_of_mem hcallsnd hmem
  · intro hmem
    exact List.count_eq_one_of_mem hackednd hmem
  · intro hmem
    exact runSession_acked_ok cb ds d hnd hm hmem
  · intro c hc hmem
    have hok := runSession_acked_ok cb ds d hnd hm hmem
    rw [hc] at hok
    cases hok
  · intro hmem hok
    exact runSession_ok_acked cb ds d hnd hm hmem hok

/-- Witness for C3 at a concrete callback failing on ack-id 2 and a three-message
delivery sequence, checked for the first delivery. -/
theorem delivery_called_once_acked_at_most_once_witness :
    ((⟨1⟩ : Delivery).ack_id ∈
        (runSession (fun d => if d.ack_id = 2 then Except.error 9 else Except.ok ())
          [⟨1⟩, ⟨2⟩, ⟨3⟩]).calls →
      (runSession (fun d => if d.ack_id = 2 then Except.error 9 else Except.ok ())
          [⟨1⟩, ⟨2⟩, ⟨3⟩]).calls.count (⟨1⟩ : Delivery).ack_id = 1) ∧
      ((⟨1⟩ : Delivery).ack_id ∈
          (runSession (fun d => if d.ack_id = 2 then Except.error 9 else Except.ok ())
            [⟨1⟩, ⟨2⟩, ⟨3⟩]).acked →
        (runSession (fun d => if d.ack_id = 2 then Except.error 9 else Except.ok ())
            [⟨1⟩, ⟨2⟩, ⟨3⟩]).acked.count (⟨1⟩ : Delivery).ack_id = 1) ∧
      ((⟨1⟩ : Delivery).ack_id ∈
          (runSession (fun d => if d.ack_id = 2 then Except.error 9 else Except.ok ())
            [⟨1⟩, ⟨2⟩, ⟨3⟩]).acked →
        (fun d : Delivery => if d.ack_id = 2 then Except.error 9 else Except.ok ())
            ⟨1⟩ = Except.ok ()) ∧
      (∀ c, (fun d : Delivery => if d.ack_id = 2 then Except.error 9 else Except.ok ())
            ⟨1⟩ = Except.error c →
        (⟨1⟩ : Delivery).ack_id ∉
          (runSession (fun d => if d.ack_id = 2 then Except.error 9 else Except.ok ())
            [⟨1⟩, ⟨2⟩, ⟨3⟩]).acked) ∧
      ((⟨1⟩ : Delivery).ack_id ∈
          (runSession (fun d => if d.ack_id = 2 then Except.error 9 else Except.ok ())
            [⟨1⟩, ⟨2⟩, ⟨3⟩]).calls →
        (fun d : Delivery => if d.ack_id = 2 then Except.error 9 else Except.ok ())
            ⟨1⟩ = Except.ok () →
        (⟨1⟩ : Delivery).ack_id ∈
          (runSession (fun d => if d.ack_id = 2 then Except.error 9 else Except.ok ())
            [⟨1⟩, ⟨2⟩, ⟨3⟩]).acked) :=
  delivery_called_once_acked_at_most_once
    (fun d => if d.ack_id = 2 then Except.error 9 else Except.ok ())
    [⟨1⟩, ⟨2⟩, ⟨3⟩] ⟨1⟩ (by decide) (by decide)

/-! ## Lease Extender (spec section 4.4) -/

/-- Modelled from the spec: the Lease Extender of `google.cloud.pubsub_v1` is not under
the source tree. The lease deadline in force at time `t`, for an ack deadline of `d`
and a renewal period of `p`: the initial deadline is `d`, and each renewal tick (every
`p` time units) pushes the deadline of every outstanding lease to the tick time plus
`d`. -/
def deadlineAt (d p : Nat) : Nat → Nat
  | 0 => d
  | t + 1 => if (t + 1) % p = 0 then (t + 1) + d else deadlineAt d p t

/-- Whether the lease of a message outstanding through time `T` ever expired: some
instant up to `T` reached its deadline then in force. -/
def leaseExpiredBy (d p T : Nat) : Bool :=
  (List.range (T + 1)).any (fun t => decide (deadlineAt d p t ≤ t))

/-- Modelled from the spec: the broker redelivers a message iff its lease expired while
the message was outstanding; otherwise the message is delivered to the callback
exactly once. -/
def deliveryCount (d p T : Nat) : Nat :=
  if leaseExpiredBy d p T then 2 else 1

theorem deadlineAt_eq (d p : Nat) (t : Nat) :
    deadlineAt d p t = d + p * (t / p) := by
  induction t with
  | zero => simp [deadlineAt]
  | succ t ih =>
      by_cases h : (t + 1) % p = 0
      · have hdvd : p ∣ t + 1 := Nat.dvd_of_mod_eq_zero h
        have hmul : p * ((t + 1) / p) = t + 1 := Nat.mul_div_cancel' hdvd
        simp only [deadlineAt, h, if_true]
        omega
      · have hndvd : ¬p ∣ t + 1 := fun hdvd => h (Nat.mod_eq_zero_of_dvd hdvd)
        simp only [deadlineAt, h, if_false]
        rw [ih, Nat.succ_div, if_neg hndvd]
        simp

theorem time_lt_deadlineAt (d p : Nat) (hp : 0 < p) (hpd : p < d) (t : Nat) :
    t < deadlineAt d p t := by
  rw [deadlineAt_eq d p t]
  have h1 : p * (t / p) + t % p = t := Nat.div_add_mod t p
  have h2 : t % p < p := Nat.mod_lt t hp
  omega

theorem lease_never_expires (d p T : Nat) (hp : 0 < p) (hpd : p < d) :
    leaseExpiredBy d p T = false := by
  simp only [leaseExpiredBy, List.any_eq_false, decide_eq_true_eq]
  intro t ht
  exact Nat.not_le.mpr (time_lt_deadlineAt d p hp hpd t)

/-- Claim C5: with the Lease Extender's periodic batched renewal running at a period
shorter than the negotiated ack deadline, a lease never expires while its message is
outstanding, so the broker never redelivers: each message is delivered to the callback
exactly once, and a batch of messages (e.g. the two of the ack-deadline scenario)
yields exactly as many deliveries as messages, whatever their processing times. -/
theorem lease_renewal_delivers_exactly_once (d p T : Nat) (Ts : List Nat)
    (hp : 0 < p) (hpd : p < d) :
    deliveryCount d p T = 1 ∧
      (Ts.map (fun t => deliveryCount d p t)).sum = Ts.length := by
  have hone : ∀ t : Nat, deliveryCount d p t = 1 := fun t => by
    simp [deliveryCount, lease_never_expires d p t hp hpd]
  refine ⟨hone T, ?_⟩
  induction Ts with
  | nil => rfl
  | cons t ts ih => simp [hone t, ih, Nat.add_comm]

/-- Witness for C5: ack deadline 45s, renewal period 30s (two thirds of the deadline),
two messages outstanding 13s and 26s under `max_messages = 1`. -/
theorem lease_renewal_delivers_exactly_once_witness :
    deliveryCount 45 30 26 = 1 ∧
      ([13, 26].map (fun t => deliveryCount 45 30 t)).sum = ([13, 26] : List Nat).length :=
  lease_renewal_delivers_exactly_once 45 30 26 [13, 26] (by decide) (by decide)

/-! ## Attribute round-trip (source: `_publish_messages`, `StreamingPullCallback`) -/

/-- A message as published: payload plus attribute key-value mapping. -/
structure PubMessage where
  data : String
  attributes : List (String × String)
deriving DecidableEq

/-- A message as delivered to the callback: payload, attributes, and the ack-id the
broker attached to this delivery. -/
structure ReceivedMessage where
  data : String
  attributes : List (String × String)
  ack_id : Nat
deriving DecidableEq

/-- Lookup of an attribute value by key, as `message.attributes[key]` does. -/
def lookupAttr (attrs : List (String × String)) (k : String) : Option String :=
  Option.map Prod.snd (attrs.find? (fun kv => kv.1 == k))

/-- Publication with a sequence-number attribute, embedded from `_publish_messages` in
`pubsub/tests/system.py`, which publishes each message with
`seq_num=str(next(msg_counter))`. -/
def publishWithSeqNum (data : String) (n : Nat) : PubMessage :=
  { data := data, attributes := [("seq_num", toString n)] }

/-- Modelled from the spec: the transport delivers `(payload, attributes, ack_id,
approx_size)` for each published message — payload and attributes pass through
unmodified, with a broker-assigned ack-id attached. -/
def brokerDeliver (ackId : Nat) (m : PubMessage) : ReceivedMessage :=
  { data := m.data, attributes := m.attributes, ack_id := ackId }

/-- Claim C9: the message delivered to the user callback carries exactly the attribute
mapping attached at publish time, unmodified; in particular a `seq_num` attribute reads
back as the sequence number that was attached. -/
theorem attributes_round_trip (m : PubMessage) (ackId : Nat) (data : String) (n : Nat) :
    (brokerDeliver ackId m).attributes = m.attributes ∧
      lookupAttr (brokerDeliver ackId (publishWithSeqNum data n)).attributes "seq_num" =
        some (toString n) := by
  exact ⟨rfl, rfl⟩

/-! ## StreamingPullCallback (source: `pubsub/tests/system.py`, lines 612-639) -/

/-- The mutable state of `StreamingPullCallback`: the counters set up in `__init__`
(`_pending_ack = 0`, `max_pending_ack = 0`, `completed_calls = 0`,
`seen_message_ids = []`, `done_future` pending), plus an instrumentation counter of
how many times `done_future.set_result` was invoked. The future resolves with the
Python value `None`, rendered as `Unit`. -/
structure SPCState where
  pending_ack : Nat
  max_pending_ack : Nat
  completed_calls : Nat
  seen_message_ids : List Int
  done_future : Option Unit
  set_result_calls : Nat
deriving DecidableEq

/-- The state `StreamingPullCallback.__init__` builds. -/
def spcInit : SPCState :=
  { pending_ack := 0, max_pending_ack := 0, completed_calls := 0,
    seen_message_ids := [], done_future := none, set_result_calls := 0 }

/-- One atomic section of `StreamingPullCallback.__call__`: the first `with self._lock`
block on entry (carrying the message's `seq_num`), or the second `with self._lock`
block after the processing sleep. An interleaving of concurrent invocations is any
sequence of these events. -/
inductive SPCEvent where
  | enter (seq : Int)
  | finish

/-- Embedded from `StreamingPullCallback.__call__`: the entry section increments
`_pending_ack`, updates `max_pending_ack` and appends the message's `seq_num`; the
completion section decrements `_pending_ack`, acks, increments `completed_calls`, and
once `completed_calls` has reached `_resolve_at_msg_count` resolves `done_future` —
but only if `done_future.done()` is not already true. -/
def spcStep (resolve_at : Nat) (s : SPCState) : SPCEvent → SPCState
  | SPCEvent.enter seq =>
      { s with pending_ack := s.pending_ack + 1,
               max_pending_ack := max s.max_pending_ack (s.pending_ack + 1),
               seen_message_ids := s.seen_message_ids ++ [seq] }
  | SPCEvent.finish =>
      if resolve_at ≤ s.completed_calls + 1 then
        if s.done_future.isSome then
          { s with pending_ack := s.pending_ack - 1,
                   completed_calls := s.completed_calls + 1 }
        else
          { s with pending_ack := s.pending_ack - 1,
                   completed_calls := s.completed_calls + 1,
                   done_future := some (),
                   set_result_calls := s.set_result_calls + 1 }
      else
        { s with pending_ack := s.pending_ack - 1,
                 completed_calls := s.completed_calls + 1 }

/-- The callback state after an interleaving of locked sections, from `__init__`. -/
def spcRun (resolve_at : Nat) (events : List SPCEvent) : SPCState :=
  events.foldl (spcStep resolve_at) spcInit

/-- The inductive invariant tying `done_future` to `completed_calls` and to the number
of `set_result` invocations. -/
def SPCInv (resolve_at : Nat) (s : SPCState) : Prop :=
  (s.done_future.isSome ↔ resolve_at ≤ s.completed_calls) ∧
    s.set_result_calls = (if s.done_future.isSome then 1 else 0)

theorem spcStep_inv (resolve_at : Nat) (s : SPCState) (e : SPCEvent)
    (h : SPCInv resolve_at s) : SPCInv resolve_at (spcStep resolve_at s e) := by
  obtain ⟨hiff, hcount⟩ := h
  cases e with
  | enter seq => exact ⟨hiff, hcount⟩
  | finish =>
      by_cases hra : resolve_at ≤ s.completed_calls + 1
      · by_cases hdone : s.done_future.isSome = true
        · rw [spcStep, if_pos hra, if_pos hdone]
          exact ⟨⟨fun _ => hra, fun _ => hdone⟩,
            by simpa [hdone] using hcount⟩
        · rw [spcStep, if_pos hra, if_neg hdone]
          refine ⟨⟨fun _ => hra, fun _ => rfl⟩, ?_⟩
          have h0 : s.set_result_calls = 0 := by simpa [hdone] using hcount
          simpa using h0
      · have hnd : ¬s.done_future.isSome = true := fun hd =>
          hra (Nat.le_succ_of_le (hiff.mp hd))
        rw [spcStep, if_neg hra]
        exact ⟨⟨fun hd => absurd hd hnd, fun hle => absurd hle hra⟩,
          by simpa [hnd] using hcount⟩

theorem spcRun_inv (resolve_at : Nat) (events : List SPCEvent) (hra : 1 ≤ resolve_at) :
    SPCInv resolve_at (spcRun resolve_at events) := by
  have hinit : SPCInv resolve_at spcInit := by
    constructor
    · simp only [spcInit, Option.isSome_none]
      constructor
      · intro h
        cases h
      · intro h
        omega
    · simp [spcInit]
  rw [spcRun]
  generalize hgen : spcInit = s0 at hinit
  clear hgen
  induction events generalizing s0 with
  | nil => exact hinit
  | cons e es ih => exact ih _ (spcStep_inv resolve_at s0 e hinit)

/-- Claim C10: over every interleaving of the locked sections of concurrent
`StreamingPullCallback.__call__` invocations, `done_future`'s result is set at most
once: it is resolved exactly when `completed_calls` has reached
`_resolve_at_msg_count` (hence the first time it does so), and any later invocation
observes `done_future.done()` true and performs no further `set_result`. -/
theorem done_future_set_at_most_once (resolve_at : Nat) (events : List SPCEvent)
    (hra : 1 ≤ resolve_at) :
    (spcRun resolve_at events).set_result_calls ≤ 1 ∧
      ((spcRun resolve_at events).done_future.isSome ↔
        resolve_at ≤ (spcRun resolve_at events).completed_calls) ∧
      (spcRun resolve_at events).set_result_calls =
        (if (spcRun resolve_at events).done_future.isSome then 1 else 0) := by
  obtain ⟨hiff, hcount⟩ := spcRun_inv resolve_at events hra
  refine ⟨?_, hiff, hcount⟩
  rw [hcount]
  by_cases h : (spcRun resolve_at events).done_future.isSome <;> simp [h]

/-- Witness for C10: two concurrent invocations interleaved, resolving at the second
completion; a third completion does not set the future again. -/
theorem done_future_set_at_most_once_witness :
    (spcRun 2 [SPCEvent.enter 1, SPCEvent.enter 2, SPCEvent.finish, SPCEvent.enter 3,
        SPCEvent.finish, SPCEvent.finish]).set_result_calls ≤ 1 ∧
      ((spcRun 2 [SPCEvent.enter 1, SPCEvent.enter 2, SPCEvent.finish, SPCEvent.enter 3,
          SPCEvent.finish, SPCEvent.finish]).done_future.isSome ↔
        2 ≤ (spcRun 2 [SPCEvent.enter 1, SPCEvent.enter 2, SPCEvent.finish,
          SPCEvent.enter 3, SPCEvent.finish, SPCEvent.finish]).completed_calls) ∧
      (spcRun 2 [SPCEvent.enter 1, SPCEvent.enter 2, SPCEvent.finish, SPCEvent.enter 3,
          SPCEvent.finish, SPCEvent.finish]).set_result_calls =
        (if (spcRun 2 [SPCEvent.enter 1, SPCEvent.enter 2, SPCEvent.finish,
            SPCEvent.enter 3, SPCEvent.finish, SPCEvent.finish]).done_future.isSome
          then 1 else 0) :=
  done_future_set_at_most_once 2
    [SPCEvent.enter 1, SPCEvent.enter 2, SPCEvent.finish, SPCEvent.enter 3,
      SPCEvent.finish, SPCEvent.finish] (by decide)

end Pubsub
